import Mathlib

/-!
Verification development for the technical-analysis / trading-signal engine
(`technicalAnalysis` service of the buy_signal repository).

The engine is embedded shallowly:
* Candle prices and volumes are exact rationals (`ℚ`).  The source stores them
  as decimal strings and converts with `parseFloat`; the specification mandates
  exact decimal values, so the string round-trip is modelled as the identity.
* Timestamps are integers (`ℤ`, milliseconds).
* The source's `Date.now()` call inside `calculateMACD` is modelled as an
  explicit `now : ℤ` argument threaded to every function that (transitively)
  reads the wall clock.
* JavaScript array indexing `a[i]` is modelled with `List.getD` and an explicit
  default element; all indices the analysed claims depend on are in range.
-/

/-- One OHLCV candle.  Field `open_` models the source field `open`
(`open` is a Lean keyword). -/
structure KlineData where
  open_ : ℚ
  high : ℚ
  low : ℚ
  close : ℚ
  volume : ℚ
  openTime : ℤ
  closeTime : ℤ
deriving DecidableEq

/-- Aligned EMA point produced by `TechnicalAnalysisService.analyzeData`. -/
structure EMAData where
  timestamp : ℤ
  ema9 : ℚ
  ema20 : ℚ
  ema200 : ℚ
deriving DecidableEq

/-- One VWAP point. -/
structure VWAPData where
  timestamp : ℤ
  vwap : ℚ
  volume : ℚ
deriving DecidableEq

/-- One MACD point. -/
structure MACDData where
  timestamp : ℤ
  macd : ℚ
  signal : ℚ
  histogram : ℚ
deriving DecidableEq

/-- Zone direction (`'supply' | 'demand'`). -/
inductive ZoneKind where
  | supply
  | demand
deriving DecidableEq

/-- Zone strength (`'weak' | 'medium' | 'strong'`). -/
inductive ZoneStrength where
  | weak
  | medium
  | strong
deriving DecidableEq

/-- Signal direction (`'buy' | 'sell'`). -/
inductive SignalType where
  | buy
  | sell
deriving DecidableEq

/-- A supply/demand zone record. -/
structure SupplyDemandZone where
  type : ZoneKind
  high : ℚ
  low : ℚ
  timestamp : ℤ
  strength : ZoneStrength
  zoneType : String
  isValid : Bool
deriving DecidableEq

/-- An EMA-bounce strategy signal record. -/
structure EMABounceSignal where
  timestamp : ℤ
  type : SignalType
  price : ℚ
  ema9 : ℚ
  ema20 : ℚ
  ema200 : ℚ
  vwap : ℚ
  macdLine : ℚ
  macdSignal : ℚ
  bullishStack : Bool
  priceAboveVWAP : Bool
  macdBullish : Bool
  bounceConfirmed : Bool
  confidence : ℚ
deriving DecidableEq

/-- A supply/demand strategy signal record. -/
structure SupplyDemandSignal where
  timestamp : ℤ
  type : SignalType
  price : ℚ
  zone : SupplyDemandZone
  entryReason : String
  stopLoss : ℚ
  takeProfit : ℚ
  riskReward : ℚ
  confidence : ℚ
deriving DecidableEq

/-- Strategy tag carried by an orchestrator-level signal. -/
inductive Strategy where
  | ema_bounce
  | supply_demand
deriving DecidableEq

/-- The tagged union of strategy-specific signal payloads. -/
inductive SignalData where
  | ema (s : EMABounceSignal)
  | sd (s : SupplyDemandSignal)
deriving DecidableEq

/-- Orchestrator output signal with identity metadata. -/
structure TradingSignal where
  id : String
  symbol : String
  exchange : String
  tradingType : String
  timeframe : String
  timestamp : ℤ
  type : SignalType
  price : ℚ
  strategy : Strategy
  signalData : SignalData
  isActive : Bool
  confidence : ℚ
deriving DecidableEq

/-- The bundle returned by `TechnicalAnalysisService.analyzeData`. -/
structure AnalysisResult where
  emaData : List EMAData
  vwapData : List VWAPData
  macdData : List MACDData
  supplyDemandZones : List SupplyDemandZone
  emaBounceSignals : List EMABounceSignal
  supplyDemandSignals : List SupplyDemandSignal
  allSignals : List TradingSignal
deriving DecidableEq

/-- The tail loop of `calculateEMA`: the source keeps the growing `ema` array
and reads `ema[ema.length - 1]`; that last element is carried here as `prev`. -/
def emaGo (multiplier : ℚ) : ℚ → List ℚ → List ℚ
  | _, [] => []
  | prev, x :: rest =>
    let currentEMA := x * multiplier + prev * (1 - multiplier)
    currentEMA :: emaGo multiplier currentEMA rest

/-- `calculateEMA` from the source: empty when the series is shorter than the
period, otherwise an SMA seed followed by the exponential recurrence. -/
def calculateEMA (data : List ℚ) (period : ℕ) : List ℚ :=
  if data.length < period then []
  else
    let multiplier : ℚ := 2 / ((period : ℚ) + 1)
    let sma := (data.take period).sum / (period : ℚ)
    sma :: emaGo multiplier sma (data.drop period)

/-- The loop of `calculateVWAP`, threading the running cumulative
typical-price·volume and cumulative volume. -/
def vwapGo : ℚ → ℚ → List KlineData → List VWAPData
  | _, _, [] => []
  | cumulativeTPV, cumulativeVolume, candle :: rest =>
    let typicalPrice := (candle.high + candle.low + candle.close) / 3
    let tpv := typicalPrice * candle.volume
    let cumTPV := cumulativeTPV + tpv
    let cumVol := cumulativeVolume + candle.volume
    let vwap := if 0 < cumVol then cumTPV / cumVol else typicalPrice
    { timestamp := candle.closeTime, vwap := vwap, volume := candle.volume }
      :: vwapGo cumTPV cumVol rest

/-- `calculateVWAP` from the source. -/
def calculateVWAP (klineData : List KlineData) : List VWAPData :=
  vwapGo 0 0 klineData

/-- `calculateMACD` from the source.  `now` models the `Date.now()` reading
used to synthesize the output timestamps. -/
def calculateMACD (now : ℤ) (prices : List ℚ)
    (fastPeriod slowPeriod signalPeriod : ℕ) : List MACDData :=
  let fastEMA := calculateEMA prices fastPeriod
  let slowEMA := calculateEMA prices slowPeriod
  if fastEMA.length = 0 ∨ slowEMA.length = 0 then []
  else
    let startIndex := slowPeriod - fastPeriod
    let macdLine := (List.range slowEMA.length).map
      (fun i => fastEMA.getD (i + startIndex) 0 - slowEMA.getD i 0)
    let signalLine := calculateEMA macdLine signalPeriod
    let signalStartIndex := macdLine.length - signalLine.length
    (List.range signalLine.length).map (fun i =>
      let macdIndex := i + signalStartIndex
      { timestamp := now - ((signalLine.length : ℤ) - (i : ℤ) - 1) * 60000
        macd := macdLine.getD macdIndex 0
        signal := signalLine.getD i 0
        histogram := macdLine.getD macdIndex 0 - signalLine.getD i 0 })

/-- Default candle standing for JavaScript's out-of-range array read. -/
def defaultKline : KlineData :=
  { open_ := 0, high := 0, low := 0, close := 0, volume := 0
    openTime := 0, closeTime := 0 }

/-- The zone candidates pushed by one iteration (index `i`) of the pattern
scan in `detectSupplyDemandZones`: bullish/bearish engulfing then the two
pin-bar patterns, in source order. -/
def zoneCandidatesAt (klineData : List KlineData) (i : ℕ) : List SupplyDemandZone :=
  let current := klineData.getD i defaultKline
  let prev := klineData.getD (i - 1) defaultKline
  let currentHigh := current.high
  let currentLow := current.low
  let currentOpen := current.open_
  let currentClose := current.close
  let prevHigh := prev.high
  let prevLow := prev.low
  let prevClose := prev.close
  let bodySize := |currentClose - currentOpen|
  let upperWick := currentHigh - max currentOpen currentClose
  let lowerWick := min currentOpen currentClose - currentLow
  let totalRange := currentHigh - currentLow
  (if prevClose < currentOpen ∧ prevHigh < currentClose then
    [{ type := ZoneKind.demand, high := currentHigh, low := min currentLow prevLow
       timestamp := current.closeTime, strength := ZoneStrength.strong
       zoneType := "DBR", isValid := true }]
   else [])
  ++ (if currentOpen < prevClose ∧ currentClose < prevLow then
    [{ type := ZoneKind.supply, high := max currentHigh prevHigh, low := currentLow
       timestamp := current.closeTime, strength := ZoneStrength.strong
       zoneType := "RBD", isValid := true }]
   else [])
  ++ (if bodySize * 2 < lowerWick ∧ upperWick * 2 < lowerWick ∧ 0 < totalRange then
    [{ type := ZoneKind.demand, high := max currentOpen currentClose, low := currentLow
       timestamp := current.closeTime
       strength := if bodySize * 3 < lowerWick then ZoneStrength.strong else ZoneStrength.medium
       zoneType := "DBR", isValid := true }]
   else [])
  ++ (if bodySize * 2 < upperWick ∧ lowerWick * 2 < upperWick ∧ 0 < totalRange then
    [{ type := ZoneKind.supply, high := currentHigh, low := min currentOpen currentClose
       timestamp := current.closeTime
       strength := if bodySize * 3 < upperWick then ZoneStrength.strong else ZoneStrength.medium
       zoneType := "RBD", isValid := true }]
   else [])

/-- All zone candidates: the source loop `for (i = 2; i < length - 2; i++)`. -/
def zoneCandidates (klineData : List KlineData) : List SupplyDemandZone :=
  (List.range' 2 (klineData.length - 4)).flatMap (zoneCandidatesAt klineData)

/-- `getZoneStrengthValue` from the source. -/
def getZoneStrengthValue : ZoneStrength → ℕ
  | ZoneStrength.weak => 1
  | ZoneStrength.medium => 2
  | ZoneStrength.strong => 3

/-- The overlap test of `consolidateZones`: same type and intersecting
`[low, high]` intervals. -/
def zonesOverlap (zone existingZone : SupplyDemandZone) : Bool :=
  decide (zone.type = existingZone.type ∧
    zone.low ≤ existingZone.high ∧ existingZone.low ≤ zone.high)

/-- The backward scan of `consolidateZones`: try the more recent part of the
accepted list first; at the first (most recent) conflicting zone keep the
strictly stronger of the pair in place and stop.  Returns `none` when no
accepted zone conflicts. -/
def replaceLastConflict (zone : SupplyDemandZone) :
    List SupplyDemandZone → Option (List SupplyDemandZone)
  | [] => none
  | e :: rest =>
    match replaceLastConflict zone rest with
    | some r => some (e :: r)
    | none =>
      if zonesOverlap zone e then
        some ((if getZoneStrengthValue e.strength < getZoneStrengthValue zone.strength
          then zone else e) :: rest)
      else none

/-- One iteration of the outer loop of `consolidateZones`. -/
def consolidateStep (consolidated : List SupplyDemandZone)
    (zone : SupplyDemandZone) : List SupplyDemandZone :=
  match replaceLastConflict zone consolidated with
  | some r => r
  | none => consolidated ++ [zone]

/-- JavaScript `slice(-n)`: the `n` most recent elements. -/
def sliceLast {α : Type} (n : ℕ) (l : List α) : List α :=
  l.drop (l.length - n)

/-- `consolidateZones` from the source. -/
def consolidateZones (zones : List SupplyDemandZone) : List SupplyDemandZone :=
  sliceLast 20 (zones.foldl consolidateStep [])

/-- `detectSupplyDemandZones` from the source. -/
def detectSupplyDemandZones (klineData : List KlineData) : List SupplyDemandZone :=
  if klineData.length < 10 then []
  else consolidateZones (zoneCandidates klineData)

/-- The factor record taken by `calculateSignalConfidence`. -/
structure ConfidenceFactors where
  bullStack : Bool
  priceAboveVWAP : Bool
  macdBull : Bool
  bounceQuality : ℚ
  volumeConfirmation : Bool

/-- `calculateSignalConfidence` from the source. -/
def calculateSignalConfidence (factors : ConfidenceFactors) : ℚ :=
  let c0 : ℚ := 0
  let c1 := if factors.bullStack then c0 + 25 else c0
  let c2 := if factors.priceAboveVWAP then c1 + 20 else c1
  let c3 := if factors.macdBull then c2 + 20 else c2
  let c4 := if factors.volumeConfirmation then c3 + 15 else c3
  let c5 := c4 + max 0 (20 - factors.bounceQuality * 100)
  min 100 (max 0 c5)

/-- `getZoneConfidence` from the source. -/
def getZoneConfidence (zone : SupplyDemandZone) : ℚ :=
  let confidence : ℚ := 50
  let confidence :=
    if zone.strength = ZoneStrength.strong then confidence + 30
    else if zone.strength = ZoneStrength.medium then confidence + 15
    else confidence
  let confidence :=
    if zone.zoneType = "DBR" ∨ zone.zoneType = "RBD" then confidence + 20
    else confidence
  min 100 confidence

/-- Default MACD point standing for an out-of-range array read. -/
def defaultMacd : MACDData := { timestamp := 0, macd := 0, signal := 0, histogram := 0 }

/-- Default VWAP point: models `vwapData[k]?.vwap || 0`. -/
def defaultVwap : VWAPData := { timestamp := 0, vwap := 0, volume := 0 }

/-- The per-call context of the `detectEMABounceSignal` scan: the input and
indicator series together with the alignment quantities computed once before
the loop. -/
structure BounceCtx where
  klineData : List KlineData
  ema9 : List ℚ
  ema20 : List ℚ
  ema200 : List ℚ
  macdData : List MACDData
  vwapData : List VWAPData
  minLength : ℕ
  startIndex : ℕ
  tolPct : ℚ
  maxWait : ℕ

/-- `klineData[startIndex + i]`. -/
def bounceCurrent (c : BounceCtx) (i : ℕ) : KlineData :=
  c.klineData.getD (c.startIndex + i) defaultKline

/-- `ema9[ema9.length - minLength + i]`. -/
def bounceEma9 (c : BounceCtx) (i : ℕ) : ℚ :=
  c.ema9.getD (c.ema9.length - c.minLength + i) 0

/-- `ema20[ema20.length - minLength + i]`. -/
def bounceEma20 (c : BounceCtx) (i : ℕ) : ℚ :=
  c.ema20.getD (c.ema20.length - c.minLength + i) 0

/-- `ema200[i]`. -/
def bounceEma200 (c : BounceCtx) (i : ℕ) : ℚ :=
  c.ema200.getD i 0

/-- `ema9[ema9.length - minLength + i - 1]`. -/
def bouncePrevEma9 (c : BounceCtx) (i : ℕ) : ℚ :=
  c.ema9.getD (c.ema9.length - c.minLength + i - 1) 0

/-- `ema20[ema20.length - minLength + i - 1]`. -/
def bouncePrevEma20 (c : BounceCtx) (i : ℕ) : ℚ :=
  c.ema20.getD (c.ema20.length - c.minLength + i - 1) 0

/-- `vwapData[vwapData.length - minLength + i]?.vwap || 0`. -/
def bounceVwap (c : BounceCtx) (i : ℕ) : ℚ :=
  (c.vwapData.getD (c.vwapData.length - c.minLength + i) defaultVwap).vwap

/-- `macdData[i]` (note: the source indexes the MACD series by the loop
counter itself, not by a trailing-window offset). -/
def bounceMacd (c : BounceCtx) (i : ℕ) : MACDData :=
  c.macdData.getD i defaultMacd

/-- `bullStack`: fast EMA above medium above slow. -/
def bounceBullStack (c : BounceCtx) (i : ℕ) : Bool :=
  decide (bounceEma20 c i < bounceEma9 c i ∧ bounceEma200 c i < bounceEma20 c i)

/-- `emaCrossUp`: edge-triggered fast/medium cross with fast above slow. -/
def bounceCrossUp (c : BounceCtx) (i : ℕ) : Bool :=
  decide (bouncePrevEma9 c i ≤ bouncePrevEma20 c i ∧
    bounceEma20 c i < bounceEma9 c i ∧ bounceEma200 c i < bounceEma9 c i)

/-- `tolPrice = currentEma9 * (1 + tolPct / 100)`. -/
def bounceTolPrice (c : BounceCtx) (i : ℕ) : ℚ :=
  bounceEma9 c i * (1 + c.tolPct / 100)

/-- `bounce`: the candle dips to the tolerance band and closes back above the
fast EMA. -/
def bounceBounce (c : BounceCtx) (i : ℕ) : Bool :=
  decide ((bounceCurrent c i).low ≤ bounceTolPrice c i ∧
    bounceEma9 c i < (bounceCurrent c i).close)

/-- `priceAboveVWAP`. -/
def bouncePriceAboveVWAP (c : BounceCtx) (i : ℕ) : Bool :=
  decide (bounceVwap c i < (bounceCurrent c i).close)

/-- `macdBull`. -/
def bounceMacdBull (c : BounceCtx) (i : ℕ) : Bool :=
  decide ((bounceMacd c i).signal < (bounceMacd c i).macd)

/-- The signal record pushed when the buy condition fires at step `i`.  Every
field is computed from the step context exactly as in the source push. -/
def bounceSignalAt (c : BounceCtx) (i : ℕ) : EMABounceSignal :=
  { timestamp := (bounceCurrent c i).closeTime
    type := SignalType.buy
    price := (bounceCurrent c i).close
    ema9 := bounceEma9 c i
    ema20 := bounceEma20 c i
    ema200 := bounceEma200 c i
    vwap := bounceVwap c i
    macdLine := (bounceMacd c i).macd
    macdSignal := (bounceMacd c i).signal
    bullishStack := bounceBullStack c i
    priceAboveVWAP := bouncePriceAboveVWAP c i
    macdBullish := bounceMacdBull c i
    bounceConfirmed := bounceBounce c i
    confidence := calculateSignalConfidence
      { bullStack := bounceBullStack c i
        priceAboveVWAP := bouncePriceAboveVWAP c i
        macdBull := bounceMacdBull c i
        bounceQuality := (bounceTolPrice c i - (bounceCurrent c i).low) / bounceTolPrice c i
        volumeConfirmation := decide (0 < (bounceCurrent c i).volume) } }

/-- The abort test `!bullStack || (maxWait > 0 && barsWaited > maxWait)`. -/
def bounceAbort (c : BounceCtx) (i : ℕ) (barsWaited1 : ℕ) : Bool :=
  !(bounceBullStack c i) || (decide (0 < c.maxWait) && decide (c.maxWait < barsWaited1))

/-- The per-step state of the scan: the waiting flag, the bar counter, and the
signals pushed so far. -/
structure BounceState where
  waitBounce : Bool
  barsWaited : ℕ
  signals : List EMABounceSignal

/-- `waitBounce` after the cross-up re-arm (`if (emaCrossUp) waitBounce = true`). -/
def bounceWait1 (c : BounceCtx) (i : ℕ) (st : BounceState) : Bool :=
  if bounceCrossUp c i then true else st.waitBounce

/-- `barsWaited` after the cross-up re-arm / increment. -/
def bounceBars1 (c : BounceCtx) (i : ℕ) (st : BounceState) : ℕ :=
  if bounceCrossUp c i then 0
  else if st.waitBounce then st.barsWaited + 1 else st.barsWaited

/-- `waitBounce` after the abort test. -/
def bounceWait2 (c : BounceCtx) (i : ℕ) (st : BounceState) : Bool :=
  if bounceAbort c i (bounceBars1 c i st) then false else bounceWait1 c i st

/-- `barsWaited` after the abort test. -/
def bounceBars2 (c : BounceCtx) (i : ℕ) (st : BounceState) : ℕ :=
  if bounceAbort c i (bounceBars1 c i st) then 0 else bounceBars1 c i st

/-- `buySignal = waitBounce && bounce && priceAboveVWAP && macdBull`. -/
def bounceFire (c : BounceCtx) (i : ℕ) (st : BounceState) : Bool :=
  bounceWait2 c i st && bounceBounce c i && bouncePriceAboveVWAP c i && bounceMacdBull c i

/-- One iteration of the `detectEMABounceSignal` loop: the cross-up re-arm,
the wait counter, the abort test, then the buy condition. -/
def bounceStep (c : BounceCtx) (st : BounceState) (i : ℕ) : BounceState :=
  if bounceFire c i st then
    { waitBounce := false, barsWaited := 0, signals := st.signals ++ [bounceSignalAt c i] }
  else
    { waitBounce := bounceWait2 c i st, barsWaited := bounceBars2 c i st, signals := st.signals }

/-- The context computed by the preamble of `detectEMABounceSignal`: the
indicator series and the alignment quantities `minLength` and `startIndex`,
exactly as the source computes them before its loop. -/
def bounceCtxOf (now : ℤ) (klineData : List KlineData) (vwapData : List VWAPData)
    (fastLen medLen slowLen macdFast macdSlow macdSig : ℕ) (tolPct : ℚ)
    (maxWait : ℕ) : BounceCtx :=
  let closePrices := klineData.map (fun k => k.close)
  let ema9 := calculateEMA closePrices fastLen
  let ema20 := calculateEMA closePrices medLen
  let ema200 := calculateEMA closePrices slowLen
  let macdData := calculateMACD now closePrices macdFast macdSlow macdSig
  let minLength := min (min ema200.length macdData.length) vwapData.length
  { klineData := klineData, ema9 := ema9, ema20 := ema20, ema200 := ema200
    macdData := macdData, vwapData := vwapData, minLength := minLength
    startIndex := klineData.length - minLength, tolPct := tolPct, maxWait := maxWait }

/-- `detectEMABounceSignal` from the source.  `now` models the `Date.now()`
reading of the internal `calculateMACD` call. -/
def detectEMABounceSignal (now : ℤ) (klineData : List KlineData)
    (vwapData : List VWAPData) (fastLen medLen slowLen macdFast macdSlow macdSig : ℕ)
    (tolPct : ℚ) (maxWait : ℕ) : List EMABounceSignal :=
  if klineData.length < slowLen then []
  else
    let c : BounceCtx := bounceCtxOf now klineData vwapData fastLen medLen slowLen
      macdFast macdSlow macdSig tolPct maxWait
    ((List.range' 1 (c.minLength - 1)).foldl (bounceStep c)
      { waitBounce := false, barsWaited := 0, signals := [] }).signals

/-- The body of the inner loop of `detectSupplyDemandSignals` for one
candle/zone pair: `none` models `continue` / no push. -/
def sdSignalFor (candle : KlineData) (zone : SupplyDemandZone) :
    Option SupplyDemandSignal :=
  if zone.isValid = false then none
  else if candle.low ≤ zone.high ∧ zone.low ≤ candle.high then
    if zone.type = ZoneKind.demand ∧ zone.low < candle.close then
      let stopLoss := zone.low * (99 / 100)
      let takeProfit := zone.high + (zone.high - zone.low) * 2
      some { timestamp := candle.closeTime, type := SignalType.buy
             price := candle.close, zone := zone
             entryReason := "Price bounced from " ++ zone.zoneType ++ " demand zone"
             stopLoss := stopLoss, takeProfit := takeProfit
             riskReward := (takeProfit - candle.close) / (candle.close - stopLoss)
             confidence := getZoneConfidence zone }
    else if zone.type = ZoneKind.supply ∧ candle.close < zone.high then
      let stopLoss := zone.high * (101 / 100)
      let takeProfit := zone.low - (zone.high - zone.low) * 2
      some { timestamp := candle.closeTime, type := SignalType.sell
             price := candle.close, zone := zone
             entryReason := "Price rejected from " ++ zone.zoneType ++ " supply zone"
             stopLoss := stopLoss, takeProfit := takeProfit
             riskReward := (candle.close - takeProfit) / (stopLoss - candle.close)
             confidence := getZoneConfidence zone }
    else none
  else none

/-- `detectSupplyDemandSignals` from the source: the 50 most recent candles
against every zone, in candle-major order. -/
def detectSupplyDemandSignals (klineData : List KlineData)
    (zones : List SupplyDemandZone) : List SupplyDemandSignal :=
  if klineData.length = 0 ∨ zones.length = 0 then []
  else (sliceLast 50 klineData).flatMap (fun candle => zones.filterMap (sdSignalFor candle))

/-- `TechnicalAnalysisService.analyzeData` from the source.  `now` models the
wall-clock reading passed to both `calculateMACD` call sites. -/
def TechnicalAnalysisService.analyzeData (now : ℤ)
    (exchange tradingType symbol timeframe : String)
    (klineData : List KlineData) : AnalysisResult :=
  let closePrices := klineData.map (fun k => k.close)
  let ema9 := calculateEMA closePrices 9
  let ema20 := calculateEMA closePrices 20
  let ema200 := calculateEMA closePrices 200
  let minLength := min (min ema9.length ema20.length) ema200.length
  let startIndex := klineData.length - minLength
  let emaData : List EMAData := (List.range minLength).map (fun i =>
    { timestamp := (klineData.getD (startIndex + i) defaultKline).closeTime
      ema9 := ema9.getD (ema9.length - minLength + i) 0
      ema20 := ema20.getD (ema20.length - minLength + i) 0
      ema200 := ema200.getD i 0 })
  let vwapData := calculateVWAP klineData
  let macdData := calculateMACD now closePrices 12 26 9
  let supplyDemandZones := detectSupplyDemandZones klineData
  let emaBounceSignals := detectEMABounceSignal now klineData vwapData 9 20 200 12 26 9 (5 / 100) 30
  let supplyDemandSignals := detectSupplyDemandSignals klineData supplyDemandZones
  let allSignals : List TradingSignal :=
    emaBounceSignals.map (fun signal =>
      { id := "ema_" ++ toString signal.timestamp
        symbol := symbol, exchange := exchange, tradingType := tradingType
        timeframe := timeframe, timestamp := signal.timestamp
        type := signal.type, price := signal.price
        strategy := Strategy.ema_bounce, signalData := SignalData.ema signal
        isActive := true, confidence := signal.confidence })
    ++ supplyDemandSignals.map (fun signal =>
      { id := "sd_" ++ toString signal.timestamp
        symbol := symbol, exchange := exchange, tradingType := tradingType
        timeframe := timeframe, timestamp := signal.timestamp
        type := signal.type, price := signal.price
        strategy := Strategy.supply_demand, signalData := SignalData.sd signal
        isActive := true, confidence := signal.confidence })
  { emaData := emaData, vwapData := vwapData, macdData := macdData
    supplyDemandZones := supplyDemandZones, emaBounceSignals := emaBounceSignals
    supplyDemandSignals := supplyDemandSignals, allSignals := allSignals }

/-- Typical price `(high + low + close) / 3` of a candle. -/
def typicalPriceOf (c : KlineData) : ℚ :=
  (c.high + c.low + c.close) / 3

/-- Cumulative volume after processing candles `0..k` of the list. -/
def prefixVolume (l : List KlineData) (k : ℕ) : ℚ :=
  ((l.take (k + 1)).map (fun c => c.volume)).sum

/-- Cumulative typical-price·volume after processing candles `0..k`. -/
def prefixTPV (l : List KlineData) (k : ℕ) : ℚ :=
  ((l.take (k + 1)).map (fun c => typicalPriceOf c * c.volume)).sum

/-- The strategy tag used in synthesized signal ids. -/
def strategyTag : Strategy → String
  | Strategy.ema_bounce => "ema"
  | Strategy.supply_demand => "sd"

/-- `chronBool ts` holds when each timestamp is at most the next one. -/
def chronBool : List ℤ → Bool
  | a :: b :: rest => decide (a ≤ b) && chronBool (b :: rest)
  | _ => true

/-- Whether the list contains two distinct zones of the same type with
overlapping bands. -/
def hasSameTypeOverlapPair : List SupplyDemandZone → Bool
  | [] => false
  | z :: rest => rest.any (fun e => zonesOverlap z e) || hasSameTypeOverlapPair rest

/-- A degenerate flat candle (all prices 100, volume 1) at time `t`. -/
def flatCandle (t : ℤ) : KlineData :=
  { open_ := 100, high := 100, low := 100, close := 100, volume := 1
    openTime := t, closeTime := t }

/-- A bullish-engulfing candle against a preceding `flatCandle`. -/
def bumpCandle (t : ℤ) : KlineData :=
  { open_ := 201 / 2, high := 102, low := 199 / 2, close := 102, volume := 1
    openTime := t, closeTime := t }

/-- 203 ascending candles, flat except for bullish-engulfing candles at
indices 34 and 200.  The candle at 34 makes the (misaligned) MACD filter of
the bounce scan bullish at the final steps; the candle at 200 produces both a
demand zone and an EMA-bounce buy signal. -/
def badInput : List KlineData :=
  (List.range 203).map (fun i => if i = 34 ∨ i = 200 then bumpCandle (i : ℤ) else flatCandle (i : ℤ))

/-- Ten ascending candles, flat except for a bullish-engulfing candle at
index 3: yields exactly one demand zone. -/
def zoneInput : List KlineData :=
  (List.range 10).map (fun i => if i = 3 then bumpCandle (i : ℤ) else flatCandle (i : ℤ))

/-- The demand zone detected on `zoneInput`. -/
def zoneInputZone : SupplyDemandZone :=
  { type := ZoneKind.demand, high := 102, low := 199 / 2, timestamp := 3
    strength := ZoneStrength.strong, zoneType := "DBR", isValid := true }

/-- A candle with unit wicks around a given close, used for small witnesses. -/
def wickCandle (c : ℚ) (t : ℤ) : KlineData :=
  { open_ := c, high := c + 1, low := c - 1, close := c, volume := 1
    openTime := t, closeTime := t }

/-- Ten candles forming an uptrend with a one-bar dip: with periods 2/3/5 and
MACD 2/3/2 the bounce scan fires one buy signal. -/
def bounceInput : List KlineData :=
  [wickCandle 1 0, wickCandle 2 1, wickCandle 3 2, wickCandle 4 3, wickCandle 5 4,
   wickCandle 3 5, wickCandle 6 6, wickCandle 7 7, wickCandle 8 8, wickCandle 9 9]

/-- Default bounce-signal record used for indexing in witnesses. -/
def defaultBounce : EMABounceSignal :=
  { timestamp := 0, type := SignalType.buy, price := 0, ema9 := 0, ema20 := 0
    ema200 := 0, vwap := 0, macdLine := 0, macdSignal := 0, bullishStack := false
    priceAboveVWAP := false, macdBullish := false, bounceConfirmed := false
    confidence := 0 }

/-- A weak demand zone with band [0, 1]. -/
def zoneA : SupplyDemandZone :=
  { type := ZoneKind.demand, high := 1, low := 0, timestamp := 0
    strength := ZoneStrength.weak, zoneType := "DBR", isValid := true }

/-- A medium demand zone with band [5, 6]. -/
def zoneB : SupplyDemandZone :=
  { type := ZoneKind.demand, high := 6, low := 5, timestamp := 1
    strength := ZoneStrength.medium, zoneType := "DBR", isValid := true }

/-- A strong demand zone with band [0, 6], overlapping both `zoneA` and
`zoneB`. -/
def zoneC : SupplyDemandZone :=
  { type := ZoneKind.demand, high := 6, low := 0, timestamp := 2
    strength := ZoneStrength.strong, zoneType := "DBR", isValid := true }

/-- 34 constant closing prices: the shortest history giving a nonempty MACD
series at the default 12/26/9 periods. -/
def constPrices34 : List ℚ :=
  List.replicate 34 100

/-- A zero-volume candle used by witnesses. -/
def zeroVolCandle1 : KlineData :=
  { open_ := 1, high := 3, low := 1, close := 2, volume := 0
    openTime := 0, closeTime := 0 }

/-- A second zero-volume candle used by witnesses. -/
def zeroVolCandle2 : KlineData :=
  { open_ := 2, high := 5, low := 1, close := 3, volume := 0
    openTime := 1, closeTime := 1 }

/-- Default supply/demand signal record used for indexing in witnesses. -/
def defaultSdSignal : SupplyDemandSignal :=
  { timestamp := 0, type := SignalType.buy, price := 0
    zone := { type := ZoneKind.demand, high := 0, low := 0, timestamp := 0
              strength := ZoneStrength.weak, zoneType := "", isValid := false }
    entryReason := "", stopLoss := 0, takeProfit := 0, riskReward := 0, confidence := 0 }

/-- The bounce context of the `bounceInput` witness run. -/
def bounceWitnessCtx : BounceCtx :=
  bounceCtxOf 0 bounceInput (calculateVWAP bounceInput) 2 3 5 2 3 2 (5 / 100) 30

/-- The first bounce signal of the `bounceInput` run with 2/3/5 and 2/3/2
periods, used as a witness. -/
def bounceWitnessSignal : EMABounceSignal :=
  (detectEMABounceSignal 0 bounceInput (calculateVWAP bounceInput) 2 3 5 2 3 2
    (5 / 100) 30).getD 0 defaultBounce

/-- The first zone signal of the `zoneInput` run, used as a witness. -/
def sdWitnessSignal : SupplyDemandSignal :=
  (detectSupplyDemandSignals zoneInput (detectSupplyDemandZones zoneInput)).getD 0
    defaultSdSignal

/-- The buy signal `sdSignalFor` pushes for a demand-zone interaction. -/
def sdBuySignal (candle : KlineData) (zone : SupplyDemandZone) : SupplyDemandSignal :=
  { timestamp := candle.closeTime, type := SignalType.buy, price := candle.close
    zone := zone
    entryReason := "Price bounced from " ++ zone.zoneType ++ " demand zone"
    stopLoss := zone.low * (99 / 100)
    takeProfit := zone.high + (zone.high - zone.low) * 2
    riskReward := (zone.high + (zone.high - zone.low) * 2 - candle.close) /
      (candle.close - zone.low * (99 / 100))
    confidence := getZoneConfidence zone }


theorem emaGo_length (m prev : ℚ) (l : List ℚ) : (emaGo m prev l).length = l.length := by
  induction l generalizing prev with
  | nil => rfl
  | cons x rest ih => simp [emaGo, ih]

theorem emaGo_getD (m : ℚ) (prev : ℚ) (l : List ℚ) (k : ℕ) (hk : k < l.length) :
    (emaGo m prev l).getD k 0 =
      l.getD k 0 * m +
        (if k = 0 then prev else (emaGo m prev l).getD (k - 1) 0) * (1 - m) := by
  induction l generalizing prev k with
  | nil => simp at hk
  | cons x rest ih =>
    cases k with
    | zero => simp [emaGo]
    | succ k =>
      simp only [emaGo, List.getD_cons_succ]
      rw [ih _ k (by simpa using hk)]
      cases k with
      | zero => simp [emaGo]
      | succ k => simp [emaGo, List.getD_cons_succ]

/-- Claim C4: `calculateEMA` returns the empty sequence when the series is
shorter than the period; otherwise its first value is the simple average of
the first `period` elements, each later value satisfies the exponential
recurrence with multiplier `2/(period+1)`, and the output length is
`length - period + 1`. -/
theorem calculateEMA_spec (data : List ℚ) (period : ℕ) :
    (data.length < period → calculateEMA data period = []) ∧
    (period ≤ data.length →
      (calculateEMA data period).length = data.length - period + 1 ∧
      (calculateEMA data period).getD 0 0 = (data.take period).sum / (period : ℚ) ∧
      ∀ k, 1 ≤ k → k ≤ data.length - period →
        (calculateEMA data period).getD k 0 =
          data.getD (period + k - 1) 0 * (2 / ((period : ℚ) + 1)) +
            (calculateEMA data period).getD (k - 1) 0 * (1 - 2 / ((period : ℚ) + 1))) := by
  constructor
  · intro h
    simp [calculateEMA, h]
  · intro h
    have hnot : ¬ data.length < period := not_lt.mpr h
    refine ⟨?_, ?_, ?_⟩
    · simp only [calculateEMA, if_neg hnot, List.length_cons, emaGo_length, List.length_drop]
    · simp [calculateEMA, hnot]
    · intro k hk1 hk2
      obtain ⟨j, rfl⟩ : ∃ j, k = j + 1 := ⟨k - 1, by omega⟩
      have hj : j < (data.drop period).length := by
        simp only [List.length_drop]; omega
      simp only [calculateEMA, if_neg hnot, List.getD_cons_succ]
      rw [emaGo_getD _ _ _ j hj]
      have hdrop : (data.drop period).getD j 0 = data.getD (period + j) 0 := by
        simp [List.getD_eq_getElem?_getD, List.getElem?_drop]
      have hidx : period + (j + 1) - 1 = period + j := by omega
      rw [hdrop, hidx]
      cases j with
      | zero => simp
      | succ j => simp [List.getD_cons_succ]

theorem vwapGo_length (cT cV : ℚ) (l : List KlineData) :
    (vwapGo cT cV l).length = l.length := by
  induction l generalizing cT cV with
  | nil => rfl
  | cons c rest ih => simp [vwapGo, ih]

theorem vwapGo_getD (l : List KlineData) : ∀ (k : ℕ) (cT cV : ℚ), k < l.length →
    (vwapGo cT cV l).getD k defaultVwap =
      { timestamp := (l.getD k defaultKline).closeTime
        vwap :=
          if 0 < cV + prefixVolume l k then (cT + prefixTPV l k) / (cV + prefixVolume l k)
          else typicalPriceOf (l.getD k defaultKline)
        volume := (l.getD k defaultKline).volume } := by
  induction l with
  | nil => intro k cT cV hk; simp at hk
  | cons c rest ih =>
    intro k cT cV hk
    cases k with
    | zero =>
      simp [vwapGo, prefixVolume, prefixTPV, typicalPriceOf]
    | succ k =>
      simp only [vwapGo, List.getD_cons_succ]
      rw [ih k _ _ (by simpa using hk)]
      simp only [prefixVolume, prefixTPV, typicalPriceOf, List.take_succ_cons,
        List.map_cons, List.sum_cons, List.getD_cons_succ]
      rw [add_assoc, add_assoc]

/-- Claim C7: `calculateVWAP` yields one point per candle; each point's value
is the guarded cumulative quotient, equal to the candle's typical price
whenever the cumulative volume so far is zero (in particular on all-zero
volume input), so the division never runs on a zero cumulative volume. -/
theorem calculateVWAP_spec (klineData : List KlineData) :
    (calculateVWAP klineData).length = klineData.length ∧
    (∀ k, k < klineData.length →
      ((calculateVWAP klineData).getD k defaultVwap).vwap =
        if 0 < prefixVolume klineData k then prefixTPV klineData k / prefixVolume klineData k
        else typicalPriceOf (klineData.getD k defaultKline)) ∧
    (∀ k, k < klineData.length → prefixVolume klineData k = 0 →
      ((calculateVWAP klineData).getD k defaultVwap).vwap =
        typicalPriceOf (klineData.getD k defaultKline)) ∧
    ((∀ c ∈ klineData, c.volume = 0) → ∀ k, k < klineData.length →
      ((calculateVWAP klineData).getD k defaultVwap).vwap =
        typicalPriceOf (klineData.getD k defaultKline)) := by
  have key : ∀ k, k < klineData.length →
      ((calculateVWAP klineData).getD k defaultVwap).vwap =
        if 0 < prefixVolume klineData k then prefixTPV klineData k / prefixVolume klineData k
        else typicalPriceOf (klineData.getD k defaultKline) := by
    intro k hk
    rw [calculateVWAP, vwapGo_getD _ k 0 0 hk]
    simp
  refine ⟨vwapGo_length 0 0 klineData, key, ?_, ?_⟩
  · intro k hk h0
    rw [key k hk, h0]
    simp
  · intro hall k hk
    have h0 : prefixVolume klineData k = 0 := by
      apply List.sum_eq_zero
      intro x hx
      simp only [List.mem_map] at hx
      obtain ⟨c, hc, rfl⟩ := hx
      exact hall c (List.mem_of_mem_take hc)
    rw [key k hk, h0]
    simp

/-- Claim C8: too little history produces empty result collections: fewer
than 10 candles for zone detection, fewer than the slow EMA period for the
bounce scan; both functions are total. -/
theorem insufficientHistory_empty (now : ℤ) (klineData : List KlineData)
    (vwapData : List VWAPData) (fastLen medLen slowLen macdFast macdSlow macdSig : ℕ)
    (tolPct : ℚ) (maxWait : ℕ) :
    (klineData.length < 10 → detectSupplyDemandZones klineData = []) ∧
    (klineData.length < slowLen →
      detectEMABounceSignal now klineData vwapData fastLen medLen slowLen
        macdFast macdSlow macdSig tolPct maxWait = []) := by
  constructor <;> intro h <;> simp [detectSupplyDemandZones, detectEMABounceSignal, h]

theorem replaceLastConflict_none (z : SupplyDemandZone) (l : List SupplyDemandZone)
    (h : ∀ e ∈ l, zonesOverlap z e = false) : replaceLastConflict z l = none := by
  induction l with
  | nil => rfl
  | cons e rest ih =>
    have he : zonesOverlap z e = false := h e (by simp)
    have hr : replaceLastConflict z rest = none := ih (fun x hx => h x (by simp [hx]))
    simp [replaceLastConflict, hr, he]

theorem replaceLastConflict_split (z e : SupplyDemandZone) (pre post : List SupplyDemandZone)
    (he : zonesOverlap z e = true) (hpost : ∀ x ∈ post, zonesOverlap z x = false) :
    replaceLastConflict z (pre ++ e :: post) =
      some (pre ++ (if getZoneStrengthValue e.strength < getZoneStrengthValue z.strength
        then z else e) :: post) := by
  induction pre with
  | nil =>
    simp only [List.nil_append]
    simp [replaceLastConflict, replaceLastConflict_none z post hpost, he]
  | cons a pre ih =>
    simp only [List.cons_append]
    simp [replaceLastConflict, ih]

/-- Claim C1 (amended): each candidate is compared only against the most
recently accepted conflicting same-type zone; the strictly stronger of that
pair is kept in place (the accepted zone on ties), a conflicting candidate is
never appended, and a candidate without conflicts is appended as new.  The
output may still retain same-type overlapping zones. -/
theorem consolidateStep_nearestConflict (cons : List SupplyDemandZone) (z : SupplyDemandZone) :
    ((∀ e ∈ cons, zonesOverlap z e = false) → consolidateStep cons z = cons ++ [z]) ∧
    (∀ pre e post, cons = pre ++ e :: post → zonesOverlap z e = true →
      (∀ x ∈ post, zonesOverlap z x = false) →
      consolidateStep cons z =
        pre ++ (if getZoneStrengthValue e.strength < getZoneStrengthValue z.strength
          then z else e) :: post) := by
  constructor
  · intro h
    simp [consolidateStep, replaceLastConflict_none z cons h]
  · intro pre e post hc he hp
    subst hc
    simp [consolidateStep, replaceLastConflict_split z e pre post he hp]

theorem mem_replaceLastConflict (z x : SupplyDemandZone) :
    ∀ (l r : List SupplyDemandZone), replaceLastConflict z l = some r → x ∈ r → x ∈ l ∨ x = z := by
  intro l
  induction l with
  | nil => intro r h; simp [replaceLastConflict] at h
  | cons e rest ih =>
    intro r h hx
    rw [replaceLastConflict] at h
    cases hrec : replaceLastConflict z rest with
    | some r' =>
      rw [hrec] at h
      obtain rfl : e :: r' = r := by simpa using h
      rcases List.mem_cons.mp hx with rfl | hx'
      · exact Or.inl (by simp)
      · rcases ih r' hrec hx' with h' | h'
        · exact Or.inl (by simp [h'])
        · exact Or.inr h'
    | none =>
      rw [hrec] at h
      by_cases ho : zonesOverlap z e = true
      · rw [if_pos ho] at h
        obtain rfl :
            (if getZoneStrengthValue e.strength < getZoneStrengthValue z.strength
              then z else e) :: rest = r := by simpa using h
        rcases List.mem_cons.mp hx with rfl | hx'
        · split
          · exact Or.inr rfl
          · exact Or.inl (by simp)
        · exact Or.inl (by simp [hx'])
      · rw [if_neg ho] at h
        simp at h

theorem mem_consolidateStep (cons : List SupplyDemandZone) (z x : SupplyDemandZone)
    (hx : x ∈ consolidateStep cons z) : x ∈ cons ∨ x = z := by
  unfold consolidateStep at hx
  cases h : replaceLastConflict z cons with
  | some r =>
    rw [h] at hx
    exact mem_replaceLastConflict z x cons r h hx
  | none =>
    rw [h] at hx
    simpa using hx

theorem mem_consolidate_foldl :
    ∀ (l acc : List SupplyDemandZone) (x : SupplyDemandZone),
      x ∈ List.foldl consolidateStep acc l → x ∈ acc ∨ x ∈ l := by
  intro l
  induction l with
  | nil => intro acc x h; exact Or.inl (by simpa using h)
  | cons z rest ih =>
    intro acc x h
    rcases ih (consolidateStep acc z) x h with h' | h'
    · rcases mem_consolidateStep acc z x h' with h'' | rfl
      · exact Or.inl h''
      · exact Or.inr (by simp)
    · exact Or.inr (by simp [h'])

theorem mem_consolidateZones (zones : List SupplyDemandZone) (x : SupplyDemandZone)
    (hx : x ∈ consolidateZones zones) : x ∈ zones := by
  unfold consolidateZones sliceLast at hx
  have hx' := List.mem_of_mem_drop hx
  rcases mem_consolidate_foldl zones [] x hx' with h | h
  · simp at h
  · exact h

theorem zoneCandidates_cases (klineData : List KlineData) (z : SupplyDemandZone)
    (hz : z ∈ zoneCandidates klineData) :
    ∃ i, 2 ≤ i ∧ i < klineData.length - 2 ∧ z ∈ zoneCandidatesAt klineData i := by
  simp only [zoneCandidates, List.mem_flatMap] at hz
  obtain ⟨i, hi, hzi⟩ := hz
  rw [List.mem_range'_1] at hi
  exact ⟨i, hi.1, by omega, hzi⟩

theorem getD_mem_of_lt {l : List KlineData} {i : ℕ} (h : i < l.length) :
    l.getD i defaultKline ∈ l := by
  rw [List.getD_eq_getElem?_getD, List.getElem?_eq_getElem h]
  simp

/-- Claim C9: on well-formed candles (low ≤ open ≤ high, low ≤ close ≤ high)
every zone produced by the pattern scan, before and after consolidation,
satisfies `low ≤ high`. -/
theorem zones_high_ge_low (klineData : List KlineData)
    (h : ∀ c ∈ klineData,
      c.low ≤ c.open_ ∧ c.open_ ≤ c.high ∧ c.low ≤ c.close ∧ c.close ≤ c.high) :
    (∀ z ∈ zoneCandidates klineData, z.low ≤ z.high) ∧
    (∀ z ∈ detectSupplyDemandZones klineData, z.low ≤ z.high) := by
  have hcand : ∀ z ∈ zoneCandidates klineData, z.low ≤ z.high := by
    intro z hz
    obtain ⟨i, hi2, hilen, hzi⟩ := zoneCandidates_cases klineData z hz
    have wfc := h _ (getD_mem_of_lt (l := klineData) (i := i) (by omega))
    simp only [zoneCandidatesAt, List.mem_append, List.mem_ite_nil_right,
      List.mem_singleton] at hzi
    rcases hzi with ((⟨_, rfl⟩ | ⟨_, rfl⟩) | ⟨_, rfl⟩) | ⟨_, rfl⟩
    · exact le_trans (min_le_left _ _) (le_trans wfc.1 wfc.2.1)
    · exact le_trans (le_trans wfc.1 wfc.2.1) (le_max_left _ _)
    · exact le_trans wfc.1 (le_max_left _ _)
    · exact le_trans (min_le_left _ _) wfc.2.1
  refine ⟨hcand, ?_⟩
  intro z hz
  unfold detectSupplyDemandZones at hz
  split at hz
  · simp at hz
  · exact hcand z (mem_consolidateZones _ z hz)

/-- Claim C10: every zone the detector emits carries a reversal pattern tag
(`DBR` or `RBD`), strength strong or medium (never weak), and `isValid`;
hence its zone-signal confidence is 85 or 100 and the weak / non-reversal
scoring branches of `getZoneConfidence` are unreachable from this pipeline. -/
theorem zones_pattern_strength_valid (klineData : List KlineData) :
    ∀ z ∈ detectSupplyDemandZones klineData,
      (z.zoneType = "DBR" ∨ z.zoneType = "RBD") ∧
      z.strength ≠ ZoneStrength.weak ∧ z.isValid = true ∧
      (getZoneConfidence z = 85 ∨ getZoneConfidence z = 100) := by
  intro z hz
  unfold detectSupplyDemandZones at hz
  split at hz
  · simp at hz
  · have hz' := mem_consolidateZones _ z hz
    obtain ⟨i, _, _, hzi⟩ := zoneCandidates_cases klineData z hz'
    simp only [zoneCandidatesAt, List.mem_append, List.mem_ite_nil_right,
      List.mem_singleton] at hzi
    rcases hzi with ((⟨_, rfl⟩ | ⟨_, rfl⟩) | ⟨_, rfl⟩) | ⟨_, rfl⟩
    · exact ⟨Or.inl rfl, by simp, rfl, Or.inr (by simp [getZoneConfidence]; norm_num [min_def])⟩
    · exact ⟨Or.inr rfl, by simp, rfl, Or.inr (by simp [getZoneConfidence]; norm_num [min_def])⟩
    · refine ⟨Or.inl rfl, ?_, rfl, ?_⟩ <;> dsimp only <;> split_ifs
      · simp
      · simp
      · exact Or.inr (by simp [getZoneConfidence]; norm_num [min_def])
      · exact Or.inl (by simp [getZoneConfidence]; norm_num [min_def])
    · refine ⟨Or.inr rfl, ?_, rfl, ?_⟩ <;> dsimp only <;> split_ifs
      · simp
      · simp
      · exact Or.inr (by simp [getZoneConfidence]; norm_num [min_def])
      · exact Or.inl (by simp [getZoneConfidence]; norm_num [min_def])

theorem sliceLast_idem {α : Type} (n : ℕ) (l : List α) :
    sliceLast n (sliceLast n l) = sliceLast n l := by
  unfold sliceLast
  have h0 : (l.drop (l.length - n)).length - n = 0 := by
    simp only [List.length_drop]
    omega
  rw [h0, List.drop_zero]

/-- Claim C6: the zone-signal detector inspects only the 50 most recent
candles, and for every such candle intersecting a valid demand zone whose low
is strictly below the candle close it emits a buy signal with
stop = zoneLow·0.99, target = zoneHigh + 2·(zoneHigh − zoneLow) and
reward-risk = (target − price)/(price − stop). -/
theorem sd_demand_buy_spec :
    (∀ (klineData : List KlineData) (zones : List SupplyDemandZone),
      detectSupplyDemandSignals klineData zones =
        detectSupplyDemandSignals (sliceLast 50 klineData) zones) ∧
    (∀ (klineData : List KlineData) (zones : List SupplyDemandZone)
        (candle : KlineData) (zone : SupplyDemandZone),
      candle ∈ sliceLast 50 klineData → zone ∈ zones → zone.isValid = true →
      zone.type = ZoneKind.demand → candle.low ≤ zone.high → zone.low ≤ candle.high →
      zone.low < candle.close →
      ∃ s ∈ detectSupplyDemandSignals klineData zones,
        s.type = SignalType.buy ∧ s.timestamp = candle.closeTime ∧
        s.price = candle.close ∧ s.stopLoss = zone.low * (99 / 100) ∧
        s.takeProfit = zone.high + (zone.high - zone.low) * 2 ∧
        s.riskReward = (s.takeProfit - s.price) / (s.price - s.stopLoss)) := by
  constructor
  · intro kl zs
    by_cases hkl : kl.length = 0
    · have hnil : kl = [] := List.length_eq_zero.mp hkl
      subst hnil
      rfl
    · by_cases hzs : zs.length = 0
      · unfold detectSupplyDemandSignals
        rw [if_pos (Or.inr hzs), if_pos (Or.inr hzs)]
      · have hsl : ¬ (sliceLast 50 kl).length = 0 := by
          simp only [sliceLast, List.length_drop]
          omega
        unfold detectSupplyDemandSignals
        rw [if_neg (by push_neg; exact ⟨hkl, hzs⟩), if_neg (by push_neg; exact ⟨hsl, hzs⟩),
          sliceLast_idem]
  · intro kl zs candle zone hc hzone hv ht h1 h2 h3
    have hklne : ¬ kl.length = 0 := by
      intro h0
      have hnil : kl = [] := List.length_eq_zero.mp h0
      subst hnil
      simp [sliceLast] at hc
    have hzsne : ¬ zs.length = 0 := by
      intro h0
      have hnil : zs = [] := List.length_eq_zero.mp h0
      subst hnil
      simp at hzone
    have hsig : sdSignalFor candle zone = some (sdBuySignal candle zone) := by
      unfold sdSignalFor sdBuySignal
      rw [if_neg (by simp [hv]), if_pos ⟨h1, h2⟩, if_pos ⟨ht, h3⟩]
    have hmem : sdBuySignal candle zone ∈ detectSupplyDemandSignals kl zs := by
      unfold detectSupplyDemandSignals
      rw [if_neg (by push_neg; exact ⟨hklne, hzsne⟩)]
      simp only [List.mem_flatMap, List.mem_filterMap]
      exact ⟨candle, hc, zone, hzone, hsig⟩
    exact ⟨sdBuySignal candle zone, hmem, rfl, rfl, rfl, rfl, rfl, rfl⟩


theorem calculateSignalConfidence_eq (f : ConfidenceFactors) :
    calculateSignalConfidence f = min 100 (max 0
      ((if f.bullStack then (25 : ℚ) else 0) + (if f.priceAboveVWAP then (20 : ℚ) else 0) +
        (if f.macdBull then (20 : ℚ) else 0) + (if f.volumeConfirmation then (15 : ℚ) else 0) +
        max 0 (20 - 100 * f.bounceQuality))) := by
  obtain ⟨b1, b2, b3, q, b4⟩ := f
  simp only [calculateSignalConfidence]
  cases b1 <;> cases b2 <;> cases b3 <;> cases b4 <;> simp <;> ring_nf

theorem calculateSignalConfidence_bounds (f : ConfidenceFactors) :
    0 ≤ calculateSignalConfidence f ∧ calculateSignalConfidence f ≤ 100 := by
  simp only [calculateSignalConfidence]
  exact ⟨le_min (by norm_num) (le_max_left 0 _), min_le_left _ _⟩

theorem getZoneConfidence_bounds (zone : SupplyDemandZone) :
    0 ≤ getZoneConfidence zone ∧ getZoneConfidence zone ≤ 100 := by
  simp only [getZoneConfidence]
  constructor
  · apply le_min (by norm_num)
    split_ifs <;> norm_num
  · exact min_le_left _ _

theorem bounceFire_conditions (c : BounceCtx) (i : ℕ) (st : BounceState)
    (h : bounceFire c i st = true) :
    bounceBullStack c i = true ∧ bounceBounce c i = true ∧
    bouncePriceAboveVWAP c i = true ∧ bounceMacdBull c i = true := by
  simp only [bounceFire, Bool.and_eq_true] at h
  obtain ⟨⟨⟨hw, hb⟩, hv⟩, hm⟩ := h
  refine ⟨?_, hb, hv, hm⟩
  cases hcase : bounceBullStack c i
  · simp [bounceWait2, bounceAbort, hcase] at hw
  · rfl

theorem bounceStep_signals (c : BounceCtx) (st : BounceState) (i : ℕ) :
    (bounceStep c st i).signals = st.signals ∨
    ((bounceStep c st i).signals = st.signals ++ [bounceSignalAt c i] ∧
      bounceFire c i st = true) := by
  unfold bounceStep
  by_cases h : bounceFire c i st = true
  · rw [if_pos h]
    exact Or.inr ⟨rfl, h⟩
  · rw [if_neg h]
    exact Or.inl rfl

theorem bounceFold_mem (c : BounceCtx) :
    ∀ (l : List ℕ) (st : BounceState), ∀ s ∈ (l.foldl (bounceStep c) st).signals,
      s ∈ st.signals ∨ ∃ i ∈ l, s = bounceSignalAt c i ∧
        bounceBullStack c i = true ∧ bounceBounce c i = true ∧
        bouncePriceAboveVWAP c i = true ∧ bounceMacdBull c i = true := by
  intro l
  induction l with
  | nil => intro st s hs; exact Or.inl hs
  | cons i rest ih =>
    intro st s hs
    rcases ih (bounceStep c st i) s hs with h | ⟨j, hj, hsj⟩
    · rcases bounceStep_signals c st i with heq | ⟨heq, hfire⟩
      · rw [heq] at h
        exact Or.inl h
      · rw [heq] at h
        rcases List.mem_append.mp h with h' | h'
        · exact Or.inl h'
        · obtain ⟨h1, h2, h3, h4⟩ := bounceFire_conditions c i st hfire
          exact Or.inr ⟨i, by simp, List.mem_singleton.mp h', h1, h2, h3, h4⟩
    · exact Or.inr ⟨j, by simp [hj], hsj⟩

/-- Claim C5: at every fired bounce buy signal the bullish-stack, VWAP and
oscillator factors hold, and the confidence is the clamped sum of the base
weights (+25/+20/+20, +15 on positive volume of the firing candle) plus the
bounce-quality term computed from the candle low and the tolerance band
`ema9·(1 + tolPct/100)`; every confidence the engine emits (bounce and zone
signals) lies in [0, 100]. -/
theorem signalConfidence_spec :
    (∀ (now : ℤ) (klineData : List KlineData) (vwapData : List VWAPData)
        (fastLen medLen slowLen macdFast macdSlow macdSig : ℕ) (tolPct : ℚ) (maxWait : ℕ),
      ∀ s ∈ detectEMABounceSignal now klineData vwapData fastLen medLen slowLen
          macdFast macdSlow macdSig tolPct maxWait,
        s.bullishStack = true ∧ s.priceAboveVWAP = true ∧ s.macdBullish = true ∧
        0 ≤ s.confidence ∧ s.confidence ≤ 100 ∧
        ∃ i, 1 ≤ i ∧
          i < (bounceCtxOf now klineData vwapData fastLen medLen slowLen macdFast
            macdSlow macdSig tolPct maxWait).minLength ∧
          s = bounceSignalAt (bounceCtxOf now klineData vwapData fastLen medLen slowLen
            macdFast macdSlow macdSig tolPct maxWait) i ∧
          s.timestamp = (bounceCurrent (bounceCtxOf now klineData vwapData fastLen medLen
            slowLen macdFast macdSlow macdSig tolPct maxWait) i).closeTime ∧
          s.price = (bounceCurrent (bounceCtxOf now klineData vwapData fastLen medLen
            slowLen macdFast macdSlow macdSig tolPct maxWait) i).close ∧
          s.confidence = min 100 (max 0
            ((if s.bullishStack then (25 : ℚ) else 0) +
              (if s.priceAboveVWAP then (20 : ℚ) else 0) +
              (if s.macdBullish then (20 : ℚ) else 0) +
              (if 0 < (bounceCurrent (bounceCtxOf now klineData vwapData fastLen medLen
                  slowLen macdFast macdSlow macdSig tolPct maxWait) i).volume
                then (15 : ℚ) else 0) +
              max 0 (20 - 100 *
                ((s.ema9 * (1 + tolPct / 100) -
                    (bounceCurrent (bounceCtxOf now klineData vwapData fastLen medLen
                      slowLen macdFast macdSlow macdSig tolPct maxWait) i).low) /
                  (s.ema9 * (1 + tolPct / 100))))))) ∧
    (∀ (klineData : List KlineData) (zones : List SupplyDemandZone),
      ∀ s ∈ detectSupplyDemandSignals klineData zones,
        0 ≤ s.confidence ∧ s.confidence ≤ 100) := by
  constructor
  · intro now kl vw fl ml sl mf ms mg tol mw s hs
    by_cases hlen : kl.length < sl
    · rw [detectEMABounceSignal, if_pos hlen] at hs
      simp at hs
    · simp only [detectEMABounceSignal, if_neg hlen] at hs
      rcases bounceFold_mem _ _ _ s hs with h | ⟨i, hi, rfl, h1, h2, h3, h4⟩
      · simp at h
      · rw [List.mem_range'_1] at hi
        refine ⟨h1, h3, h4, (calculateSignalConfidence_bounds _).1,
          (calculateSignalConfidence_bounds _).2, i, hi.1, by omega, rfl, rfl, rfl, ?_⟩
        rw [show (bounceSignalAt _ i).confidence = calculateSignalConfidence
          { bullStack := bounceBullStack _ i, priceAboveVWAP := bouncePriceAboveVWAP _ i
            macdBull := bounceMacdBull _ i
            bounceQuality := (bounceTolPrice _ i - (bounceCurrent _ i).low) / bounceTolPrice _ i
            volumeConfirmation := decide (0 < (bounceCurrent _ i).volume) } from rfl,
          calculateSignalConfidence_eq]
        simp only [decide_eq_true_eq, bounceTolPrice]
        rfl
  · intro kl zs s hs
    unfold detectSupplyDemandSignals at hs
    split at hs
    · simp at hs
    · simp only [List.mem_flatMap, List.mem_filterMap] at hs
      obtain ⟨candle, _, zone, _, hsig⟩ := hs
      simp only [sdSignalFor] at hsig
      split_ifs at hsig <;> cases hsig <;> exact getZoneConfidence_bounds zone


theorem pairwise_flatMap_ts {α β : Type} (key : α → ℤ) (ts : β → ℤ) (f : α → List β) :
    ∀ l : List α, l.Pairwise (fun a b => key a ≤ key b) →
      (∀ a ∈ l, ∀ s ∈ f a, ts s = key a) →
      (l.flatMap f).Pairwise (fun x y => ts x ≤ ts y) := by
  intro l
  induction l with
  | nil => intro _ _; simp
  | cons a rest ih =>
    intro hl hf
    rw [List.flatMap_cons, List.pairwise_append]
    rw [List.pairwise_cons] at hl
    refine ⟨?_, ih hl.2 (fun b hb => hf b (by simp [hb])), ?_⟩
    · apply List.pairwise_of_forall_mem_list
      intro x hx y hy
      rw [hf a (by simp) x hx, hf a (by simp) y hy]
    · intro x hx y hy
      simp only [List.mem_flatMap] at hy
      obtain ⟨b, hb, hyb⟩ := hy
      rw [hf a (by simp) x hx, hf b (by simp [hb]) y hyb]
      exact hl.1 b hb

theorem sdSignalFor_timestamp (candle : KlineData) (zone : SupplyDemandZone)
    (s : SupplyDemandSignal) (h : sdSignalFor candle zone = some s) :
    s.timestamp = candle.closeTime := by
  simp only [sdSignalFor] at h
  split_ifs at h <;> cases h <;> rfl

theorem sd_signals_sorted (klineData : List KlineData) (zones : List SupplyDemandZone)
    (h : klineData.Pairwise (fun a b => a.closeTime ≤ b.closeTime)) :
    (detectSupplyDemandSignals klineData zones).Pairwise
      (fun x y => x.timestamp ≤ y.timestamp) := by
  unfold detectSupplyDemandSignals
  split
  · simp
  · apply pairwise_flatMap_ts (fun c : KlineData => c.closeTime)
      (fun s : SupplyDemandSignal => s.timestamp)
    · exact List.Pairwise.sublist (List.drop_sublist _ _) h
    · intro c _ s hs
      simp only [List.mem_filterMap] at hs
      obtain ⟨z, _, hz⟩ := hs
      exact sdSignalFor_timestamp c z s hz

theorem pairwise_getD_mono (klineData : List KlineData)
    (h : klineData.Pairwise (fun a b => a.closeTime ≤ b.closeTime)) {i j : ℕ}
    (hij : i ≤ j) (hj : j < klineData.length) :
    (klineData.getD i defaultKline).closeTime ≤
      (klineData.getD j defaultKline).closeTime := by
  rcases eq_or_lt_of_le hij with rfl | hlt
  · exact le_refl _
  · have hi : i < klineData.length := lt_trans hlt hj
    rw [List.getD_eq_getElem?_getD, List.getElem?_eq_getElem hi,
      List.getD_eq_getElem?_getD, List.getElem?_eq_getElem hj]
    exact List.pairwise_iff_get.mp h ⟨i, hi⟩ ⟨j, hj⟩ hlt

theorem bounceFold_sorted (c : BounceCtx)
    (hkl : c.klineData.Pairwise (fun a b => a.closeTime ≤ b.closeTime))
    (hstart : c.startIndex = c.klineData.length - c.minLength)
    (hmin : c.minLength ≤ c.klineData.length) :
    ∀ (l : List ℕ) (st : BounceState),
      (∀ j ∈ l, j < c.minLength) → l.Pairwise (· ≤ ·) →
      st.signals.Pairwise (fun x y => x.timestamp ≤ y.timestamp) →
      (∀ s ∈ st.signals, ∀ j ∈ l, s.timestamp ≤ (bounceCurrent c j).closeTime) →
      ((l.foldl (bounceStep c) st).signals).Pairwise
        (fun x y => x.timestamp ≤ y.timestamp) := by
  intro l
  induction l with
  | nil => intro st _ _ hsort _; exact hsort
  | cons i rest ih =>
    intro st hbound hpl hsort hub
    rw [List.foldl_cons]
    rw [List.pairwise_cons] at hpl
    apply ih (bounceStep c st i)
    · intro j hj
      exact hbound j (by simp [hj])
    · exact hpl.2
    · rcases bounceStep_signals c st i with heq | ⟨heq, _⟩
      · rw [heq]
        exact hsort
      · rw [heq, List.pairwise_append]
        refine ⟨hsort, by simp, ?_⟩
        intro x hx y hy
        rw [List.mem_singleton] at hy
        subst hy
        exact hub x hx i (by simp)
    · intro s hs j hj
      rcases bounceStep_signals c st i with heq | ⟨heq, _⟩
      · rw [heq] at hs
        exact hub s hs j (by simp [hj])
      · rw [heq] at hs
        rcases List.mem_append.mp hs with hs' | hs'
        · exact hub s hs' j (by simp [hj])
        · rw [List.mem_singleton] at hs'
          subst hs'
          have hij : i ≤ j := hpl.1 j hj
          have hjlen : c.startIndex + j < c.klineData.length := by
            have hjm := hbound j (by simp [hj])
            omega
          exact pairwise_getD_mono c.klineData hkl
            (show c.startIndex + i ≤ c.startIndex + j by omega) hjlen

theorem bounce_signals_sorted (now : ℤ) (klineData : List KlineData)
    (vwapData : List VWAPData) (fastLen medLen slowLen macdFast macdSlow macdSig : ℕ)
    (tolPct : ℚ) (maxWait : ℕ)
    (h : klineData.Pairwise (fun a b => a.closeTime ≤ b.closeTime))
    (hvw : vwapData.length ≤ klineData.length) :
    (detectEMABounceSignal now klineData vwapData fastLen medLen slowLen
      macdFast macdSlow macdSig tolPct maxWait).Pairwise
        (fun x y => x.timestamp ≤ y.timestamp) := by
  simp only [detectEMABounceSignal]
  split
  · simp
  · apply bounceFold_sorted
    · exact h
    · rfl
    · exact le_trans (min_le_right _ _) hvw
    · intro j hj
      rw [List.mem_range'_1] at hj
      omega
    · exact List.pairwise_le_range' _ _
    · simp
    · simp

/-- Claim C3 (amended): every orchestrator signal id has the form
`{strategyTag}_{timestamp}`, and `allSignals` is the bounce-signal segment
followed by the zone-signal segment, each segment individually in
chronological order when the input candles are ascending by close time; the
concatenation itself need not be chronologically ordered. -/
theorem analyzeData_segments (now : ℤ) (exchange tradingType symbol timeframe : String)
    (klineData : List KlineData)
    (h : klineData.Pairwise (fun a b => a.closeTime ≤ b.closeTime)) :
    (∀ s ∈ (TechnicalAnalysisService.analyzeData now exchange tradingType symbol
        timeframe klineData).allSignals,
      s.id = strategyTag s.strategy ++ "_" ++ toString s.timestamp) ∧
    ∃ l₁ l₂,
      (TechnicalAnalysisService.analyzeData now exchange tradingType symbol timeframe
        klineData).allSignals = l₁ ++ l₂ ∧
      (∀ s ∈ l₁, s.strategy = Strategy.ema_bounce) ∧
      (∀ s ∈ l₂, s.strategy = Strategy.supply_demand) ∧
      l₁.Pairwise (fun x y => x.timestamp ≤ y.timestamp) ∧
      l₂.Pairwise (fun x y => x.timestamp ≤ y.timestamp) := by
  have hvw : (calculateVWAP klineData).length = klineData.length :=
    vwapGo_length 0 0 klineData
  constructor
  · intro s hs
    simp only [TechnicalAnalysisService.analyzeData, List.mem_append, List.mem_map] at hs
    have hema : ("ema" ++ "_" : String) = "ema_" := rfl
    have hsd : ("sd" ++ "_" : String) = "sd_" := rfl
    rcases hs with ⟨x, _, rfl⟩ | ⟨x, _, rfl⟩
    · show ("ema_" ++ toString x.timestamp) = ("ema" ++ "_") ++ toString x.timestamp
      rw [hema]
    · show ("sd_" ++ toString x.timestamp) = ("sd" ++ "_") ++ toString x.timestamp
      rw [hsd]
  · refine ⟨_, _, rfl, ?_, ?_, ?_, ?_⟩
    · intro s hs
      obtain ⟨x, _, rfl⟩ := List.mem_map.mp hs
      rfl
    · intro s hs
      obtain ⟨x, _, rfl⟩ := List.mem_map.mp hs
      rfl
    · rw [List.pairwise_map]
      exact bounce_signals_sorted now klineData (calculateVWAP klineData) 9 20 200 12 26 9
        (5 / 100) 30 h (le_of_eq hvw)
    · rw [List.pairwise_map]
      exact sd_signals_sorted klineData (detectSupplyDemandZones klineData) h

section

attribute [local semireducible] Rat.mul Rat.add Rat.sub Rat.inv Rat.ofScientific

/-- Witness for C4 at concrete inputs. -/
theorem calculateEMA_spec_wit :
    calculateEMA [(1 : ℚ), 2, 3] 5 = [] ∧
    (calculateEMA [(1 : ℚ), 2, 3, 4] 2).length = 4 - 2 + 1 ∧
    (calculateEMA [(1 : ℚ), 2, 3, 4] 2).getD 2 0 =
      [(1 : ℚ), 2, 3, 4].getD (2 + 2 - 1) 0 * (2 / ((2 : ℚ) + 1)) +
        (calculateEMA [(1 : ℚ), 2, 3, 4] 2).getD 1 0 * (1 - 2 / ((2 : ℚ) + 1)) :=
  ⟨(calculateEMA_spec [(1 : ℚ), 2, 3] 5).1 (by decide),
   (by simpa using ((calculateEMA_spec [(1 : ℚ), 2, 3, 4] 2).2 (by decide)).1),
   (((calculateEMA_spec [(1 : ℚ), 2, 3, 4] 2).2 (by decide)).2.2 2 (by decide) (by decide))⟩

/-- Witness for C7 at a concrete all-zero-volume input. -/
theorem calculateVWAP_spec_wit :
    (calculateVWAP [zeroVolCandle1, zeroVolCandle2]).length = 2 ∧
    ((calculateVWAP [zeroVolCandle1, zeroVolCandle2]).getD 1 defaultVwap).vwap =
      typicalPriceOf ([zeroVolCandle1, zeroVolCandle2].getD 1 defaultKline) :=
  ⟨by simpa using (calculateVWAP_spec _).1,
   (calculateVWAP_spec _).2.2.2 (by decide) 1 (by decide)⟩

/-- Witness for C8 at a concrete one-candle input. -/
theorem insufficientHistory_empty_wit :
    detectSupplyDemandZones [flatCandle 0] = [] ∧
    detectEMABounceSignal 0 [flatCandle 0] [] 2 3 5 2 3 2 (5 / 100) 30 = [] :=
  ⟨(insufficientHistory_empty 0 [flatCandle 0] [] 2 3 5 2 3 2 (5 / 100) 30).1 (by decide),
   (insufficientHistory_empty 0 [flatCandle 0] [] 2 3 5 2 3 2 (5 / 100) 30).2 (by decide)⟩

set_option maxRecDepth 40000 in
/-- Claim C2 (code bug): `calculateMACD` reads the wall clock (`Date.now()`)
to synthesize timestamps, so two invocations on the same 34 constant prices
at different instants return different outputs – the numeric fields agree,
the timestamps do not.  This contradicts the specified reproducibility. -/
theorem calculateMACD_wallclock_dependent :
    calculateMACD 0 constPrices34 12 26 9 ≠ calculateMACD 60000 constPrices34 12 26 9 ∧
    (calculateMACD 0 constPrices34 12 26 9).map (fun d => (d.macd, d.signal, d.histogram)) =
      (calculateMACD 60000 constPrices34 12 26 9).map (fun d => (d.macd, d.signal, d.histogram)) := by
  constructor
  · decide
  · decide

/-- Claim C1 (counterexample): consolidation does not enforce the no-overlap
invariant.  Feeding the candidates `[zoneA, zoneB, zoneC]` (weak `[0,1]`,
medium `[5,6]`, strong `[0,6]`, all demand) leaves `[zoneA, zoneC]`: the
strong candidate replaced only the most recent conflict, so the surviving
list still contains two overlapping demand zones, and the weak `zoneA`
survived a conflict with the strictly stronger candidate. -/
theorem consolidateZones_keeps_overlapping_pair :
    consolidateZones [zoneA, zoneB, zoneC] = [zoneA, zoneC] ∧
    hasSameTypeOverlapPair (consolidateZones [zoneA, zoneB, zoneC]) = true := by
  constructor
  · decide
  · decide

/-- Witness for the amended C1 at concrete zones. -/
theorem consolidateStep_nearestConflict_wit :
    consolidateStep [] zoneA = [] ++ [zoneA] ∧
    consolidateStep [zoneA, zoneB] zoneC = [zoneA, zoneC] := by
  constructor
  · exact (consolidateStep_nearestConflict [] zoneA).1 (by simp)
  · have h := (consolidateStep_nearestConflict [zoneA, zoneB] zoneC).2 [zoneA] zoneB []
      rfl (by decide) (by simp)
    rw [h]
    decide

/-- Witness for C9 at the concrete `zoneInput`. -/
theorem zones_high_ge_low_wit :
    (∀ z ∈ zoneCandidates zoneInput, z.low ≤ z.high) ∧
    (∀ z ∈ detectSupplyDemandZones zoneInput, z.low ≤ z.high) :=
  zones_high_ge_low zoneInput (by decide)

set_option maxRecDepth 40000 in
/-- Witness for C10 at the concrete `zoneInput` and its detected zone. -/
theorem zones_pattern_strength_valid_wit :
    (zoneInputZone.zoneType = "DBR" ∨ zoneInputZone.zoneType = "RBD") ∧
    zoneInputZone.strength ≠ ZoneStrength.weak ∧ zoneInputZone.isValid = true ∧
    (getZoneConfidence zoneInputZone = 85 ∨ getZoneConfidence zoneInputZone = 100) :=
  zones_pattern_strength_valid zoneInput zoneInputZone (by decide)

/-- Witness for C6 at the concrete `zoneInput` and its detected zone. -/
theorem sd_demand_buy_spec_wit :
    ∃ s ∈ detectSupplyDemandSignals zoneInput (detectSupplyDemandZones zoneInput),
      s.type = SignalType.buy ∧ s.timestamp = (flatCandle 0).closeTime ∧
      s.price = (flatCandle 0).close ∧ s.stopLoss = zoneInputZone.low * (99 / 100) ∧
      s.takeProfit = zoneInputZone.high + (zoneInputZone.high - zoneInputZone.low) * 2 ∧
      s.riskReward = (s.takeProfit - s.price) / (s.price - s.stopLoss) :=
  sd_demand_buy_spec.2 zoneInput (detectSupplyDemandZones zoneInput) (flatCandle 0)
    zoneInputZone (by decide) (by decide) (by decide) (by decide) (by decide) (by decide)
    (by decide)


/-- Witness for C5: the first signal of the concrete `bounceInput` run with
2/3/5 and 2/3/2 periods, and the first zone signal of `zoneInput`. -/
theorem signalConfidence_spec_wit :
    (bounceWitnessSignal.bullishStack = true ∧ bounceWitnessSignal.priceAboveVWAP = true ∧
      bounceWitnessSignal.macdBullish = true ∧ 0 ≤ bounceWitnessSignal.confidence ∧
      bounceWitnessSignal.confidence ≤ 100 ∧
      ∃ i, 1 ≤ i ∧ i < bounceWitnessCtx.minLength ∧
        bounceWitnessSignal = bounceSignalAt bounceWitnessCtx i ∧
        bounceWitnessSignal.timestamp = (bounceCurrent bounceWitnessCtx i).closeTime ∧
        bounceWitnessSignal.price = (bounceCurrent bounceWitnessCtx i).close ∧
        bounceWitnessSignal.confidence = min 100 (max 0
          ((if bounceWitnessSignal.bullishStack then (25 : ℚ) else 0) +
            (if bounceWitnessSignal.priceAboveVWAP then (20 : ℚ) else 0) +
            (if bounceWitnessSignal.macdBullish then (20 : ℚ) else 0) +
            (if 0 < (bounceCurrent bounceWitnessCtx i).volume then (15 : ℚ) else 0) +
            max 0 (20 - 100 *
              ((bounceWitnessSignal.ema9 * (1 + (5 / 100 : ℚ) / 100) -
                  (bounceCurrent bounceWitnessCtx i).low) /
                (bounceWitnessSignal.ema9 * (1 + (5 / 100 : ℚ) / 100))))))) ∧
    (0 ≤ sdWitnessSignal.confidence ∧ sdWitnessSignal.confidence ≤ 100) :=
  ⟨signalConfidence_spec.1 0 bounceInput (calculateVWAP bounceInput) 2 3 5 2 3 2 (5 / 100) 30
      bounceWitnessSignal (by decide),
    signalConfidence_spec.2 zoneInput (detectSupplyDemandZones zoneInput)
      sdWitnessSignal (by decide)⟩


set_option maxRecDepth 200000 in
set_option maxHeartbeats 2000000 in
/-- Claim C3 (counterexample): on 203 ascending candles (`badInput`) the
orchestrator's merged `allSignals` is not chronologically ordered: the single
bounce signal (timestamp 200) is followed by zone signals starting at
timestamp 153, because the output is a plain concatenation, not a merge. -/
theorem analyzeData_allSignals_not_chronological :
    chronBool (((TechnicalAnalysisService.analyzeData 0 "binance" "spot" "BTCUSDT" "4h"
      badInput).allSignals).map (fun s => s.timestamp)) = false := by
  decide

set_option maxRecDepth 40000 in
/-- Witness for the amended C3 at the concrete ascending `zoneInput`. -/
theorem analyzeData_segments_wit :
    (∀ s ∈ (TechnicalAnalysisService.analyzeData 0 "binance" "spot" "BTCUSDT" "4h"
        zoneInput).allSignals,
      s.id = strategyTag s.strategy ++ "_" ++ toString s.timestamp) ∧
    ∃ l₁ l₂,
      (TechnicalAnalysisService.analyzeData 0 "binance" "spot" "BTCUSDT" "4h"
        zoneInput).allSignals = l₁ ++ l₂ ∧
      (∀ s ∈ l₁, s.strategy = Strategy.ema_bounce) ∧
      (∀ s ∈ l₂, s.strategy = Strategy.supply_demand) ∧
      l₁.Pairwise (fun x y => x.timestamp ≤ y.timestamp) ∧
      l₂.Pairwise (fun x y => x.timestamp ≤ y.timestamp) :=
  analyzeData_segments 0 "binance" "spot" "BTCUSDT" "4h" zoneInput (by decide)

end
